import Mathlib

/-!
Verification of the session & clock coordination engine of the online-chess
FastAPI server.  The Python sources (game_manager.py, clock_manager.py,
validators.py, api.py, websocket_handler.py, models.py, exceptions.py) are
shallowly embedded below: in-place mutation becomes explicit state passing,
`datetime.utcnow()` calls become explicit rational time parameters (one per
call site, in call order), Python dicts become functions `String → Option α`,
and exceptions become `Except Err`.  The external python-chess library (the
"Position Authority") is abstracted as a `ChessLib` record of pure queries
over a position, where a position is identified with its move stack (exactly
the data python-chess's `Board` carries beyond the fixed start position:
`push` appends to the stack, `pop` removes the last element).
-/

/-- Chess color; the Python code uses the strings "white" / "black". -/
inductive Color where
  | white
  | black
deriving DecidableEq, Repr

/-- Model of models.GameStatus (a str enum). -/
inductive GameStatus where
  | waiting
  | active
  | finished
  | abandoned
deriving DecidableEq, Repr

/-- Model of models.GameResult (a str enum). -/
inductive GameResult where
  | whiteWins
  | blackWins
  | draw
  | stalemate
  | ongoing
deriving DecidableEq, Repr

/-- Model of models.Player. -/
structure Player where
  pid : String
  username : String
  rating : Int
deriving DecidableEq, Repr

/-- Model of models.TimeControl (both fields are Python ints). -/
structure TimeControl where
  initial_time : Int
  increment : Int
deriving DecidableEq, Repr

/-- Model of models.GameClock.  Times are seconds (Python floats, modelled
as rationals); `last_move_time` is the wall-clock instant the active color's
timer last (re)started. -/
structure GameClock where
  white_time : ℚ
  black_time : ℚ
  last_move_time : Option ℚ
  active_player : Option Color
deriving DecidableEq, Repr

/-- Model of a python-chess move as built by validators.validate_chess_move:
parsed source and target squares plus the optional promotion letter. -/
structure CMove where
  from_sq : String
  to_sq : String
  promo : Option String
deriving DecidableEq, Repr

/-- A chess position is identified with the stack of moves made from the
standard start position: python-chess's Board state is the start position
plus its move stack, `push` appends and `pop` removes the last move. -/
abbrev BoardPos := List CMove

/-- The Position Authority capability (the python-chess library, an external
collaborator): pure queries over a position. -/
structure ChessLib where
  legal_moves : BoardPos → List CMove
  san : BoardPos → CMove → String
  fen : BoardPos → String
  turn : BoardPos → Color
  is_checkmate : BoardPos → Bool
  is_stalemate : BoardPos → Bool
  is_check : BoardPos → Bool
  is_insufficient_material : BoardPos → Bool
  is_seventyfive_moves : BoardPos → Bool
  is_fivefold_repetition : BoardPos → Bool

/-- Model of models.Move (one ledger record). -/
structure MoveRec where
  from_square : String
  to_square : String
  promotion : Option String
  fen_after_move : String
  timestamp : ℚ
  move_number : Nat
  san : String
deriving DecidableEq, Repr

/-- The literal default of models.Game.current_fen. -/
def startFen : String := "rnbqkbnr/pppppppp/8/8/8/8/PPPPPPPP/RNBQKBNR w KQkq - 0 1"

/-- Model of models.Game. -/
structure Game where
  id : String
  white_player : Option Player
  black_player : Option Player
  current_fen : String
  pgn_history : List String
  move_history : List MoveRec
  clock : Option GameClock
  time_control : Option TimeControl
  status : GameStatus
  result : GameResult
  created_at : ℚ
  updated_at : ℚ
  current_turn : Color
deriving DecidableEq, Repr

/-- Error taxonomy of exceptions.py plus Python built-ins raised by the code.
The three diagnostic messages of InvalidMoveException are collapsed to one
kind (same exception class, different message strings). -/
inductive Err where
  | validation (field : String) (msg : String)
  | notFound (gid : String)
  | invalidMove (msg : String)
  | gameState (msg : String)
  | valueError (msg : String)
  | keyError
  | indexError
deriving DecidableEq, Repr

/-- Python str.strip with default (whitespace) argument. -/
def isSpaceChar (c : Char) : Bool :=
  c = ' ' || c = '\t' || c = '\n' || c = '\r'

/-- Python str.strip: drop leading and trailing whitespace. -/
def pyStrip (s : String) : String :=
  String.mk (((s.toList.dropWhile isSpaceChar).reverse.dropWhile isSpaceChar).reverse)

/-- Python str.lower (over the ASCII range used here). -/
def pyLower (s : String) : String :=
  String.mk (s.toList.map Char.toLower)

/-- Dict update: Python `d[k] = v` (with `v = none` modelling `del d[k]`). -/
def upd {α : Type} (m : String → Option α) (k : String) (v : Option α) :
    String → Option α :=
  fun k2 => if k2 = k then v else m k2

theorem upd_same {α : Type} (m : String → Option α) (k : String) (v : Option α) :
    upd m k v k = v := by
  simp [upd]

theorem upd_other {α : Type} (m : String → Option α) (k : String) (v : Option α)
    (k2 : String) (h : k2 ≠ k) : upd m k v k2 = m k2 := by
  simp [upd, h]

/-- Python max(a, b): returns b when a ≤ b, else a.  Defined by an explicit
`if` so that the kernel can evaluate it on concrete rationals. -/
def pyMax (a b : ℚ) : ℚ :=
  if a ≤ b then b else a

theorem pyMax_eq_max (a b : ℚ) : pyMax a b = max a b := by
  rw [pyMax, max_def]

/-! ## validators.py -/

/-- GameValidator.validate_game_id: rejects empty ids and (after stripping)
ids shorter than 10 characters; returns the stripped id. -/
def validate_game_id (gid : String) : Except Err String :=
  if gid = "" then .error (.validation "game_id" "Game ID cannot be empty")
  else
    let g := pyStrip gid
    if g.length < 10 then .error (.validation "game_id" "Invalid game ID format")
    else .ok g

/-- ChessValidator.validate_square: lowercases, strips, and checks the
pattern [a-h][1-8]. -/
def validate_square (s : String) (field : String) : Except Err String :=
  if s = "" then .error (.validation field "cannot be empty")
  else
    let t := pyStrip (pyLower s)
    match t.toList with
    | [f, r] =>
        if ('a' ≤ f && f ≤ 'h') && ('1' ≤ r && r ≤ '8') then .ok t
        else .error (.validation field "Invalid square format")
    | _ => .error (.validation field "Invalid square format")

/-- ChessValidator.validate_promotion: lowercases, strips, and checks
membership in \x7bq, r, b, n\x7d. -/
def validate_promotion (p : Option String) : Except Err (Option String) :=
  match p with
  | none => .ok none
  | some s =>
      let t := pyStrip (pyLower s)
      if t = "q" || t = "r" || t = "b" || t = "n" then .ok (some t)
      else .error (.validation "promotion" "Invalid promotion piece")

/-- ChessValidator.validate_move_format: both squares, the promotion, and
the from ≠ to check. -/
def validate_move_format (from_sq to_sq : String) (promo : Option String) :
    Except Err (String × String × Option String) :=
  match validate_square from_sq "from_square" with
  | .error e => .error e
  | .ok f =>
    match validate_square to_sq "to_square" with
    | .error e => .error e
    | .ok t =>
      match validate_promotion promo with
      | .error e => .error e
      | .ok pr =>
          if f = t then .error (.invalidMove "From and to squares cannot be the same")
          else .ok (f, t, pr)

/-- ChessValidator.validate_chess_move: builds the move and requires it to be
in the board's legal-move set; the three diagnostic branches all raise
InvalidMoveException. -/
def validate_chess_move (lib : ChessLib) (b : BoardPos) (f t : String)
    (promo : Option String) : Except Err CMove :=
  let m : CMove := ⟨f, t, promo⟩
  if m ∈ lib.legal_moves b then .ok m
  else .error (.invalidMove "Illegal move")

/-- GameValidator.validate_time_control: the sanity bounds on time-control
values.  (Defined in validators.py; see the create-game theorems for whether
it is ever invoked.) -/
def validate_time_control (initial_time : Int) (increment : Int) :
    Except Err (Int × Int) :=
  if initial_time ≤ 0 then
    .error (.validation "initial_time" "Initial time must be positive")
  else if increment < 0 then
    .error (.validation "increment" "Increment cannot be negative")
  else if initial_time > 7200 then
    .error (.validation "initial_time" "Initial time cannot exceed 2 hours")
  else if increment > 60 then
    .error (.validation "increment" "Increment cannot exceed 1 minute")
  else .ok (initial_time, increment)

/-! ## clock_manager.py

The ChessClock manager holds four dicts keyed by game id.  Registered
callbacks are modelled by their presence (the registered callback is always
the WebSocketHandler clock_callback, so only membership matters). -/

/-- The stored remaining time of a color (clock.white_time / clock.black_time). -/
def storedTime (c : GameClock) (p : Color) : ℚ :=
  match p with
  | .white => c.white_time
  | .black => c.black_time

/-- The other color. -/
def otherColor (p : Color) : Color :=
  match p with
  | .white => .black
  | .black => .white

/-- Model of the ChessClock manager state. -/
structure ClockMgr where
  clocks : String → Option GameClock
  time_controls : String → Option TimeControl
  running_timers : String → Bool
  callbacks : String → Bool

namespace ChessClock

/-- ChessClock.create_clock. -/
def create_clock (m : ClockMgr) (gid : String) (tc : TimeControl) :
    ClockMgr × GameClock :=
  let c : GameClock :=
    { white_time := (tc.initial_time : ℚ)
      black_time := (tc.initial_time : ℚ)
      last_move_time := none
      active_player := none }
  ({ m with
      clocks := upd m.clocks gid (some c)
      time_controls := upd m.time_controls gid (some tc) }, c)

/-- The time-freezing step of ChessClock.pause applied to one clock record:
if a color is active, subtract the elapsed time (floored at 0), then clear
the active color and start instant. -/
def pauseClock (c : GameClock) (now : ℚ) : GameClock :=
  let c1 :=
    match c.active_player, c.last_move_time with
    | some p, some last =>
        let elapsed := now - last
        match p with
        | .white => { c with white_time := pyMax 0 (c.white_time - elapsed) }
        | .black => { c with black_time := pyMax 0 (c.black_time - elapsed) }
    | _, _ => c
  { c1 with active_player := none, last_move_time := none }

/-- ChessClock.pause: freeze the active color's time, cancel the countdown
task, clear the active color.  Returns false when the game has no clock. -/
def pause (m : ClockMgr) (gid : String) (now : ℚ) : ClockMgr × Bool :=
  match m.clocks gid with
  | none => (m, false)
  | some c =>
      ({ m with
          clocks := upd m.clocks gid (some (pauseClock c now))
          running_timers := fun k => if k = gid then false else m.running_timers k },
        true)

/-- ChessClock.start: pause (its own utcnow call, `tPause`), then set the
active player and the start instant (a second utcnow call, `tSet`) and spawn
the countdown task.  Returns false when the game has no clock. -/
def start (m : ClockMgr) (gid : String) (p : Color) (tPause tSet : ℚ) :
    ClockMgr × Bool :=
  match m.clocks gid with
  | none => (m, false)
  | some _ =>
      let m1 := (pause m gid tPause).1
      match m1.clocks gid with
      | none => (m1, false)
      | some c1 =>
          ({ m1 with
              clocks := upd m1.clocks gid
                (some { c1 with active_player := some p, last_move_time := some tSet })
              running_timers := fun k => if k = gid then true else m1.running_timers k },
            true)

/-- The "pause current player's clock and add increment" block at the top of
ChessClock.switch_turn: subtract the elapsed time (floored at 0) from the
active color and add the increment when it is positive.  The active player
and start instant are NOT cleared here. -/
def switchCredit (c : GameClock) (tc : Option TimeControl) (t1 : ℚ) : GameClock :=
  match c.active_player, c.last_move_time with
  | some p, some last =>
      let elapsed := t1 - last
      match p with
      | .white =>
          let w := pyMax 0 (c.white_time - elapsed)
          let w :=
            match tc with
            | some t => if t.increment > 0 then w + (t.increment : ℚ) else w
            | none => w
          { c with white_time := w }
      | .black =>
          let b := pyMax 0 (c.black_time - elapsed)
          let b :=
            match tc with
            | some t => if t.increment > 0 then b + (t.increment : ℚ) else b
            | none => b
          { c with black_time := b }
  | _, _ => c

/-- ChessClock.switch_turn: credit the active color (utcnow call `t1`), pick
the other color, then call `start` — which pauses again at `tPause`; since
the active player and start instant were not cleared by the credit step, the
elapsed time is subtracted a second time — and records `tSet` as the new
start instant. -/
def switch_turn (m : ClockMgr) (gid : String) (t1 tPause tSet : ℚ) :
    ClockMgr × Bool :=
  match m.clocks gid with
  | none => (m, false)
  | some c =>
      let c1 := switchCredit c (m.time_controls gid) t1
      let new_player : Color :=
        if c.active_player = some Color.white then .black else .white
      let m1 := { m with clocks := upd m.clocks gid (some c1) }
      start m1 gid new_player tPause tSet

/-- ChessClock.get_remaining_time: live time for the active color, frozen
stored time otherwise; None for an unknown game. -/
def get_remaining_time (m : ClockMgr) (gid : String) (p : Color) (now : ℚ) :
    Option ℚ :=
  match m.clocks gid with
  | none => none
  | some c =>
      match c.active_player, c.last_move_time with
      | some q, some last =>
          if q = p then
            some (pyMax 0 (storedTime c p - (now - last)))
          else some (storedTime c p)
      | _, _ => some (storedTime c p)

/-- Python `x or y` on an Optional float: None and 0.0 are falsy. -/
def pyOrFloat (x : Option ℚ) (d : ℚ) : ℚ :=
  match x with
  | none => d
  | some v => if v = 0 then d else v

/-- ChessClock.get_clock_state: a snapshot whose times are
`get_remaining_time(...) or stored`, keeping the active player and start
instant. -/
def get_clock_state (m : ClockMgr) (gid : String) (now : ℚ) : Option GameClock :=
  match m.clocks gid with
  | none => none
  | some c =>
      some
        { white_time := pyOrFloat (get_remaining_time m gid .white now) c.white_time
          black_time := pyOrFloat (get_remaining_time m gid .black now) c.black_time
          last_move_time := c.last_move_time
          active_player := c.active_player }

/-- ChessClock.is_time_up. -/
def is_time_up (m : ClockMgr) (gid : String) (p : Color) (now : ℚ) : Bool :=
  match get_remaining_time m gid p now with
  | none => false
  | some r => r ≤ 0

end ChessClock

/-! ## game_manager.py -/

/-- Raise-on-missing dictionary/stack access: Python `d[k]` /
`list.pop()` semantics as an Except. -/
def getOrE {α : Type} (x : Option α) (e : Err) : Except Err α :=
  match x with
  | none => .error e
  | some a => .ok a

theorem getOrE_ok {α : Type} (x : Option α) (e : Err) (a : α)
    (h : getOrE x e = .ok a) : x = some a := by
  cases x with
  | none => cases h
  | some b => cases h; rfl

/-- Model of the GameManager state: four dicts keyed by game id. -/
structure GameManager where
  games : String → Option Game
  chess_boards : String → Option BoardPos
  move_stacks : String → Option (List CMove)
  redo_stacks : String → Option (List CMove)

namespace GameManager

/-- GameManager.create_game.  The uuid4 identifier is passed in explicitly. -/
def create_game (st : GameManager) (game_id : String) (white : Player)
    (black : Option Player) (tc : Option TimeControl) (now : ℚ) :
    GameManager × Game :=
  let game_clock : Option GameClock :=
    match tc with
    | none => none
    | some t =>
        some
          { white_time := (t.initial_time : ℚ)
            black_time := (t.initial_time : ℚ)
            last_move_time := none
            active_player := some .white }
  let g : Game :=
    { id := game_id
      white_player := some white
      black_player := black
      current_fen := startFen
      pgn_history := []
      move_history := []
      clock := game_clock
      time_control := tc
      status := match black with | none => .waiting | some _ => .active
      result := .ongoing
      created_at := now
      updated_at := now
      current_turn := .white }
  ({ games := upd st.games game_id (some g)
     chess_boards := upd st.chess_boards game_id (some [])
     move_stacks := upd st.move_stacks game_id (some [])
     redo_stacks := upd st.redo_stacks game_id (some []) }, g)

/-- GameManager.join_game. -/
def join_game (st : GameManager) (gid : String) (p : Player) (now : ℚ) :
    Except Err (GameManager × Game) :=
  Except.bind (getOrE (st.games gid) (.valueError "Game not found")) fun game =>
  if game.status ≠ GameStatus.waiting then
    .error (.valueError "Game is not waiting for players")
  else
    match game.black_player with
    | none =>
        let g' := { game with
                      black_player := some p
                      status := .active
                      updated_at := now }
        .ok ({ st with games := upd st.games gid (some g') }, g')
    | some _ => .error (.valueError "Game is already full")

/-- GameManager.is_draw on a known board (the manager method re-checks board
existence; at every internal call site the board is present). -/
def boardIsDraw (lib : ChessLib) (b : BoardPos) : Bool :=
  lib.is_stalemate b || lib.is_insufficient_material b ||
    lib.is_seventyfive_moves b || lib.is_fivefold_repetition b

/-- GameManager._check_game_end: checkmate, then stalemate, then the other
draw conditions. -/
def check_game_end (lib : ChessLib) (b : BoardPos) (g : Game) : Game :=
  if lib.is_checkmate b then
    { g with
        status := .finished
        result := if lib.turn b = Color.black then .whiteWins else .blackWins }
  else if lib.is_stalemate b then
    { g with status := .finished, result := .stalemate }
  else if boardIsDraw lib b then
    { g with status := .finished, result := .draw }
  else g

/-- The `"black" if board.turn == chess.BLACK else "white"` expression. -/
def turnString (lib : ChessLib) (b : BoardPos) : Color :=
  if lib.turn b = Color.black then .black else .white

/-- The `if game.status != GameStatus.ACTIVE: raise GameStateException`
check of GameManager.make_move. -/
def activeGuard (g : Game) : Except Err Unit :=
  if g.status ≠ GameStatus.active then
    .error (.gameState "Game is not active")
  else .ok ()

theorem activeGuard_ok (g : Game) (u : Unit) (h : activeGuard g = .ok u) :
    g.status = GameStatus.active := by
  unfold activeGuard at h
  split at h
  · cases h
  · exact not_not.mp (by assumption)

/-- The body of GameManager.make_move after input validation, acting on the
validated game id and move components. -/
def make_move_core (lib : ChessLib) (st : GameManager) (gid f t : String)
    (pr : Option String) (now : ℚ) :
    Except Err (GameManager × Game × MoveRec) :=
  Except.bind (getOrE (st.games gid) (.notFound gid)) fun game =>
  Except.bind (getOrE (st.chess_boards gid) .keyError) fun board =>
  Except.bind (activeGuard game) fun _ =>
  Except.bind (validate_chess_move lib board f t pr) fun move =>
  Except.bind (getOrE (st.move_stacks gid) .keyError) fun ms =>
  Except.bind (getOrE (st.redo_stacks gid) .keyError) fun _ =>
  let san := lib.san board move
  let board2 := board ++ [move]
  let fen2 := lib.fen board2
  let rec1 : MoveRec :=
    { from_square := f
      to_square := t
      promotion := pr
      fen_after_move := fen2
      timestamp := now
      move_number := game.move_history.length + 1
      san := san }
  let g1 := { game with
                current_fen := fen2
                current_turn := turnString lib board2
                updated_at := now
                move_history := game.move_history ++ [rec1]
                pgn_history := game.pgn_history ++ [san] }
  let g2 := check_game_end lib board2 g1
  .ok
    ({ games := upd st.games gid (some g2)
       chess_boards := upd st.chess_boards gid (some board2)
       move_stacks := upd st.move_stacks gid (some (ms ++ [move]))
       redo_stacks := upd st.redo_stacks gid (some []) },
      g2, rec1)

/-- GameManager.make_move: validate the game id, then the move format, then
run the core. -/
def make_move (lib : ChessLib) (st : GameManager) (game_id f t : String)
    (pr : Option String) (now : ℚ) :
    Except Err (GameManager × Game × MoveRec) :=
  Except.bind (validate_game_id game_id) fun gid =>
  Except.bind (validate_move_format f t pr) fun fmt =>
  make_move_core lib st gid fmt.1 fmt.2.1 fmt.2.2 now

/-- GameManager.undo_move.  The board is popped after the non-empty check on
the move stack (board.pop() raises IndexError on an empty board); the ledger
records pop only when present. -/
def undo_move (lib : ChessLib) (st : GameManager) (gid : String) (now : ℚ) :
    Except Err (GameManager × Game) :=
  Except.bind (getOrE (st.games gid) (.valueError "Game not found")) fun game =>
  Except.bind (getOrE (st.chess_boards gid) .keyError) fun board =>
  Except.bind (getOrE (st.move_stacks gid) .keyError) fun ms =>
  Except.bind (getOrE ms.getLast? (.valueError "No moves to undo")) fun undone =>
  Except.bind (getOrE board.getLast? .indexError) fun _ =>
  Except.bind (getOrE (st.redo_stacks gid) .keyError) fun rs =>
  let board2 := board.dropLast
  let g1 := { game with
                current_fen := lib.fen board2
                current_turn := turnString lib board2
                updated_at := now
                move_history := game.move_history.dropLast
                pgn_history := game.pgn_history.dropLast }
  let g2 :=
    if g1.status = GameStatus.finished then
      { g1 with status := .active, result := .ongoing }
    else g1
  .ok
    ({ games := upd st.games gid (some g2)
       chess_boards := upd st.chess_boards gid (some board2)
       move_stacks := upd st.move_stacks gid (some ms.dropLast)
       redo_stacks := upd st.redo_stacks gid (some (rs ++ [undone])) },
      g2)

/-- chess.piece_name on the promotion letter recovered from the stored move
(the source recreates the record's promotion as the full piece name). -/
def piece_name (p : String) : String :=
  if p = "q" then "queen"
  else if p = "r" then "rook"
  else if p = "b" then "bishop"
  else if p = "n" then "knight"
  else p

/-- GameManager.redo_move. -/
def redo_move (lib : ChessLib) (st : GameManager) (gid : String) (now : ℚ) :
    Except Err (GameManager × Game) :=
  Except.bind (getOrE (st.games gid) (.valueError "Game not found")) fun game =>
  Except.bind (getOrE (st.chess_boards gid) .keyError) fun board =>
  Except.bind (getOrE (st.redo_stacks gid) .keyError) fun rs =>
  Except.bind (getOrE rs.getLast? (.valueError "No moves to redo")) fun mv =>
  Except.bind (getOrE (st.move_stacks gid) .keyError) fun ms =>
  let san := lib.san board mv
  let board2 := board ++ [mv]
  let fen2 := lib.fen board2
  let rec1 : MoveRec :=
    { from_square := mv.from_sq
      to_square := mv.to_sq
      promotion := mv.promo.map piece_name
      fen_after_move := fen2
      timestamp := now
      move_number := game.move_history.length + 1
      san := san }
  let g1 := { game with
                current_fen := fen2
                current_turn := turnString lib board2
                updated_at := now
                move_history := game.move_history ++ [rec1]
                pgn_history := game.pgn_history ++ [san] }
  let g2 := check_game_end lib board2 g1
  .ok
    ({ games := upd st.games gid (some g2)
       chess_boards := upd st.chess_boards gid (some board2)
       move_stacks := upd st.move_stacks gid (some (ms ++ [mv]))
       redo_stacks := upd st.redo_stacks gid (some rs.dropLast) },
      g2)

/-- GameManager.get_game_state: validates the id, then looks it up. -/
def get_game_state (st : GameManager) (game_id : String) : Except Err Game :=
  Except.bind (validate_game_id game_id) fun gid =>
  getOrE (st.games gid) (.notFound gid)

/-- chess.Move.uci. -/
def uci (m : CMove) : String :=
  m.from_sq ++ m.to_sq ++ (match m.promo with | none => "" | some p => p)

/-- GameManager.get_legal_moves: raises ValueError on an unknown game id,
otherwise the uci strings of the legal moves. -/
def get_legal_moves (lib : ChessLib) (st : GameManager) (gid : String) :
    Except Err (List String) :=
  match st.chess_boards gid with
  | none => .error (.valueError "Game not found")
  | some b => .ok ((lib.legal_moves b).map uci)

/-- GameManager.is_checkmate: false on an unknown game id. -/
def is_checkmate (lib : ChessLib) (st : GameManager) (gid : String) : Bool :=
  match st.chess_boards gid with
  | none => false
  | some b => lib.is_checkmate b

/-- GameManager.is_stalemate: false on an unknown game id. -/
def is_stalemate (lib : ChessLib) (st : GameManager) (gid : String) : Bool :=
  match st.chess_boards gid with
  | none => false
  | some b => lib.is_stalemate b

/-- GameManager.is_check: false on an unknown game id. -/
def is_check (lib : ChessLib) (st : GameManager) (gid : String) : Bool :=
  match st.chess_boards gid with
  | none => false
  | some b => lib.is_check b

/-- GameManager.is_draw: false on an unknown game id. -/
def is_draw (lib : ChessLib) (st : GameManager) (gid : String) : Bool :=
  match st.chess_boards gid with
  | none => false
  | some b => boardIsDraw lib b

end GameManager

/-! ## api.py and websocket_handler.py

The process state couples the global GameManager with the global ChessClock.
WebSocketHandler.__init__ executes
`clock_manager.set_callback = self._setup_clock_callback`: it overwrites the
manager's set_callback attribute with the registration helper but never
invokes it, and no other code in the repository calls `set_callback` or
writes to `clock_manager.callbacks`, so the callbacks dict never gains an
entry.  Consequently no server operation below touches the `callbacks`
component. -/

structure ServerState where
  gm : GameManager
  clock : ClockMgr

/-- The process state at startup: empty registries, no callbacks. -/
def initServer : ServerState :=
  { gm :=
      { games := fun _ => none
        chess_boards := fun _ => none
        move_stacks := fun _ => none
        redo_stacks := fun _ => none }
    clock :=
      { clocks := fun _ => none
        time_controls := fun _ => none
        running_timers := fun _ => false
        callbacks := fun _ => false } }

/-- api.create_game: create the game; when a time control is given, create
the clock and — if both players are present — start white's timer. -/
def api_create_game (s : ServerState) (gid : String) (white : Player)
    (black : Option Player) (tc : Option TimeControl) (now : ℚ) :
    ServerState × Game :=
  let r := s.gm.create_game gid white black tc now
  let game := r.2
  let ck :=
    match tc with
    | none => s.clock
    | some t =>
        let ck1 := (ChessClock.create_clock s.clock gid t).1
        match game.white_player, game.black_player with
        | some _, some _ => (ChessClock.start ck1 gid .white now now).1
        | _, _ => ck1
  ({ gm := r.1, clock := ck }, game)

/-- api.join_game: join, then start white's clock when a time control is set
and both players are now present. -/
def api_join_game (s : ServerState) (gid : String) (p : Player) (now : ℚ) :
    Except Err (ServerState × Game) :=
  match GameManager.join_game s.gm gid p now with
  | .error e => .error e
  | .ok (gm', g) =>
      let ck :=
        if g.time_control.isSome && g.white_player.isSome && g.black_player.isSome
        then (ChessClock.start s.clock gid .white now now).1
        else s.clock
      .ok ({ gm := gm', clock := ck }, g)

/-- api.make_move: make the move, then switch the clock when the game's
clock field is set. -/
def api_make_move (lib : ChessLib) (s : ServerState) (game_id f t : String)
    (pr : Option String) (now : ℚ) :
    Except Err (ServerState × Game × MoveRec) :=
  match GameManager.make_move lib s.gm game_id f t pr now with
  | .error e => .error e
  | .ok (gm', g, r) =>
      let ck :=
        if g.clock.isSome then (ChessClock.switch_turn s.clock game_id now now now).1
        else s.clock
      .ok ({ gm := gm', clock := ck }, g, r)

/-- api.undo_move: calls GameManager.undo_move and nothing else. -/
def api_undo_move (lib : ChessLib) (s : ServerState) (gid : String) (now : ℚ) :
    Except Err (ServerState × Game) :=
  match GameManager.undo_move lib s.gm gid now with
  | .error e => .error e
  | .ok (gm', g) => .ok ({ gm := gm', clock := s.clock }, g)

/-- api.redo_move: calls GameManager.redo_move and nothing else. -/
def api_redo_move (lib : ChessLib) (s : ServerState) (gid : String) (now : ℚ) :
    Except Err (ServerState × Game) :=
  match GameManager.redo_move lib s.gm gid now with
  | .error e => .error e
  | .ok (gm', g) => .ok ({ gm := gm', clock := s.clock }, g)

/-- WebSocketHandler._handle_time_up: on an active game, set status finished
with the win for the non-expired color, broadcast, and pause the clock
(via _handle_game_over); exceptions are caught and printed. -/
def handle_time_up (s : ServerState) (game_id : String) (p : Color) (now : ℚ) :
    ServerState :=
  match GameManager.get_game_state s.gm game_id with
  | .error _ => s
  | .ok g =>
      if g.status = GameStatus.active then
        let g' := { g with
                      status := .finished
                      result := if p = Color.white then .blackWins else .whiteWins }
        let gm' := { s.gm with games := upd s.gm.games (pyStrip game_id) (some g') }
        { gm := gm', clock := (ChessClock.pause s.clock game_id now).1 }
      else s

/-- One iteration of ChessClock._countdown_timer for (gid, p): read the live
remaining time; when it is ≤ 0, fire the time_up callback if one is
registered (the registered callback is WebSocketHandler's clock_callback,
which runs _handle_time_up) and stop; otherwise at most emit a clock_update
broadcast, which does not change server state. -/
def countdown_tick (s : ServerState) (gid : String) (p : Color) (now : ℚ) :
    ServerState :=
  match s.clock.clocks gid with
  | none => s
  | some _ =>
      match ChessClock.get_remaining_time s.clock gid p now with
      | none => s
      | some remaining =>
          if remaining ≤ 0 then
            if s.clock.callbacks gid then handle_time_up s gid p now else s
          else s

/-! ## the operations as a step relation -/

/-- The session-touching operations of the Coordinator. -/
inductive Op where
  | create (gid : String) (w : Player) (b : Option Player) (tc : Option TimeControl)
  | join (gid : String) (p : Player)
  | move (gid f t : String) (pr : Option String)
  | undo (gid : String)
  | redo (gid : String)
  | timeUp (gid : String) (p : Color)
deriving DecidableEq, Repr

/-- One server operation.  For `create` the uuid4 identifier is required to
be fresh (uuid collisions are assumed impossible; a dict-overwrite on
collision is not modelled as a reachable behavior). -/
def stepOp (lib : ChessLib) (s : ServerState) (op : Op) (now : ℚ) :
    Except Err ServerState :=
  match op with
  | .create gid w b tc =>
      match s.gm.games gid with
      | none => .ok (api_create_game s gid w b tc now).1
      | some _ => .error .keyError
  | .join gid p =>
      match api_join_game s gid p now with
      | .error e => .error e
      | .ok r => .ok r.1
  | .move gid f t pr =>
      match api_make_move lib s gid f t pr now with
      | .error e => .error e
      | .ok r => .ok r.1
  | .undo gid =>
      match api_undo_move lib s gid now with
      | .error e => .error e
      | .ok r => .ok r.1
  | .redo gid =>
      match api_redo_move lib s gid now with
      | .error e => .error e
      | .ok r => .ok r.1
  | .timeUp gid p => .ok (handle_time_up s gid p now)

/-- Server states reachable from process startup through the modelled
operations. -/
inductive Reachable (lib : ChessLib) : ServerState → Prop where
  | init : Reachable lib initServer
  | step (s : ServerState) (op : Op) (now : ℚ) (s' : ServerState) :
      Reachable lib s → stepOp lib s op now = .ok s' → Reachable lib s'

/-! ## Clock-state invariant

Every clock record the manager ever stores has non-negative stored times and
has an active color exactly when it has a start instant. -/

/-- Invariant on stored clock records. -/
def ClockInv (c : GameClock) : Prop :=
  0 ≤ c.white_time ∧ 0 ≤ c.black_time ∧
    (c.active_player.isSome ↔ c.last_move_time.isSome)

instance (c : GameClock) : Decidable (ClockInv c) := by
  unfold ClockInv; infer_instance

theorem clockInv_create (tc : TimeControl) (h : 0 ≤ tc.initial_time) :
    ClockInv
      { white_time := (tc.initial_time : ℚ)
        black_time := (tc.initial_time : ℚ)
        last_move_time := none
        active_player := none } := by
  refine ⟨?_, ?_, by simp⟩ <;> · show (0 : ℚ) ≤ (tc.initial_time : ℚ); exact_mod_cast h

theorem clockInv_pauseClock (c : GameClock) (now : ℚ) (h : ClockInv c) :
    ClockInv (ChessClock.pauseClock c now) := by
  obtain ⟨hw, hb, _⟩ := h
  unfold ChessClock.pauseClock ClockInv
  rcases hap : c.active_player with _ | p <;>
    rcases hl : c.last_move_time with _ | l <;>
    try (exact ⟨hw, hb, by simp⟩)
  cases p <;> simp_all [pyMax_eq_max, le_max_iff]

/-- All clocks a manager stores satisfy the invariant. -/
def MgrClockInv (m : ClockMgr) : Prop :=
  ∀ gid c, m.clocks gid = some c → ClockInv c

theorem mgrClockInv_pause (m : ClockMgr) (gid : String) (now : ℚ)
    (h : MgrClockInv m) : MgrClockInv (ChessClock.pause m gid now).1 := by
  intro gid2 c2 hc2
  unfold ChessClock.pause at hc2
  rcases hm : m.clocks gid with _ | c <;> rw [hm] at hc2
  · exact h gid2 c2 hc2
  · simp only at hc2
    by_cases hg : gid2 = gid
    · subst hg
      rw [upd_same] at hc2
      cases hc2
      exact clockInv_pauseClock c now (h gid2 c hm)
    · rw [upd_other _ _ _ _ hg] at hc2
      exact h gid2 c2 hc2

theorem mgrClockInv_start (m : ClockMgr) (gid : String) (p : Color)
    (tPause tSet : ℚ) (h : MgrClockInv m) :
    MgrClockInv (ChessClock.start m gid p tPause tSet).1 := by
  intro gid2 c2 hc2
  unfold ChessClock.start at hc2
  rcases hm : m.clocks gid with _ | c <;> rw [hm] at hc2
  · exact h gid2 c2 hc2
  · simp only at hc2
    have hpause := mgrClockInv_pause m gid tPause h
    rcases hm1 : (ChessClock.pause m gid tPause).1.clocks gid with _ | c1 <;>
      rw [hm1] at hc2
    · exact hpause gid2 c2 hc2
    · simp only at hc2
      by_cases hg : gid2 = gid
      · subst hg
        rw [upd_same] at hc2
        cases hc2
        obtain ⟨hw, hb, _⟩ := hpause gid2 c1 hm1
        exact ⟨hw, hb, by simp⟩
      · rw [upd_other _ _ _ _ hg] at hc2
        exact hpause gid2 c2 hc2

theorem clockInv_switchCredit (c : GameClock) (tc : Option TimeControl)
    (t1 : ℚ) (h : ClockInv c) : ClockInv (ChessClock.switchCredit c tc t1) := by
  obtain ⟨hw, hb, hiff⟩ := h
  have hnn : ∀ x : ℚ, 0 ≤ pyMax 0 x := fun x => by
    rw [pyMax_eq_max]; exact le_max_left 0 x
  have hstep : ∀ x : ℚ,
      0 ≤ (match tc with
            | some t => if t.increment > 0 then pyMax 0 x + (t.increment : ℚ) else pyMax 0 x
            | none => pyMax 0 x) := by
    intro x
    rcases tc with _ | tcv
    · exact hnn x
    · simp only
      split
      · have h1 : (0 : ℚ) ≤ (tcv.increment : ℚ) := by
          have : (0 : ℤ) ≤ tcv.increment := le_of_lt (by assumption)
          exact_mod_cast this
        have h2 := hnn x
        linarith
      · exact hnn x
  unfold ChessClock.switchCredit
  rcases hap : c.active_player with _ | p <;>
    rcases hl : c.last_move_time with _ | l
  · exact ⟨hw, hb, by rw [hap, hl] at hiff ⊢; exact hiff⟩
  · exact ⟨hw, hb, by rw [hap, hl] at hiff ⊢; exact hiff⟩
  · exact ⟨hw, hb, by rw [hap, hl] at hiff ⊢; exact hiff⟩
  · cases p
    · exact ⟨hstep _, hb, by simp⟩
    · exact ⟨hw, hstep _, by simp⟩

theorem mgrClockInv_switch (m : ClockMgr) (gid : String) (t1 tPause tSet : ℚ)
    (h : MgrClockInv m) : MgrClockInv (ChessClock.switch_turn m gid t1 tPause tSet).1 := by
  unfold ChessClock.switch_turn
  rcases hm : m.clocks gid with _ | c
  · exact h
  · simp only
    apply mgrClockInv_start
    intro gid2 c2 hc2
    by_cases hg : gid2 = gid
    · subst hg
      simp only [upd_same, Option.some.injEq] at hc2
      rw [← hc2]
      exact clockInv_switchCredit c (m.time_controls gid2) t1 (h gid2 c hm)
    · simp only [upd_other _ _ _ _ hg] at hc2
      exact h gid2 c2 hc2

/-! ## Claim theorems about the Clock Engine -/

/-- C6: for every clock with an active color and a positive configured
increment, switch_turn adds the increment to the previously active color's
remaining time after subtracting its elapsed time (the resulting stored
value additionally has the elapsed time up to the inner pause subtracted a
second time, as the code's start-inside-switch re-pauses the still-active
color), before activating the other color; the newly active color's stored
remaining time is exactly what it was before — it is never credited the
increment by the switch. -/
theorem switch_turn_credits_only_previous_color (m : ClockMgr) (gid : String)
    (c : GameClock) (p : Color) (l : ℚ) (tcv : TimeControl) (t1 tPause tSet : ℚ)
    (hc : m.clocks gid = some c) (hp : c.active_player = some p)
    (hl : c.last_move_time = some l) (htc : m.time_controls gid = some tcv)
    (hinc : 0 < tcv.increment) :
    ∃ c', ((ChessClock.switch_turn m gid t1 tPause tSet).1).clocks gid = some c' ∧
      storedTime c' p =
        max 0 ((max 0 (storedTime c p - (t1 - l)) + (tcv.increment : ℚ)) - (tPause - l)) ∧
      storedTime c' (otherColor p) = storedTime c (otherColor p) ∧
      c'.active_player = some (otherColor p) ∧
      c'.last_move_time = some tSet := by
  have hcredit : ChessClock.switchCredit c (m.time_controls gid) t1 =
      (match p with
        | Color.white =>
            { c with white_time := pyMax 0 (c.white_time - (t1 - l)) + (tcv.increment : ℚ) }
        | Color.black =>
            { c with black_time := pyMax 0 (c.black_time - (t1 - l)) + (tcv.increment : ℚ) }) := by
    unfold ChessClock.switchCredit
    cases p <;> simp only [hp, hl, htc] <;> simp [hinc]
  unfold ChessClock.switch_turn
  rw [hc]
  simp only [hcredit]
  unfold ChessClock.start ChessClock.pause
  cases p <;>
    simp [upd_same, hp, hl, ChessClock.pauseClock, storedTime, otherColor,
      pyMax_eq_max, max_comm, sub_sub, add_comm, add_left_comm]

/-- A concrete clock manager used to instantiate the clock theorems: one
game with white active since instant 0, 60s/90s stored, increment 5. -/
def cgid6 : String := "clock-game-000006"

def c6clock : GameClock :=
  { white_time := 60, black_time := 90, last_move_time := some 0,
    active_player := some .white }

def cm6 : ClockMgr :=
  { clocks := upd (fun _ => none) cgid6 (some c6clock)
    time_controls := upd (fun _ => none) cgid6 (some ⟨60, 5⟩)
    running_timers := fun k => k = cgid6
    callbacks := fun _ => false }

/-- Witness for C6: switching at instant 2 credits white (the mover) with
the increment and leaves black's stored time untouched. -/
theorem switch_turn_credits_only_previous_color_witness :
    ∃ c', ((ChessClock.switch_turn cm6 cgid6 2 2 2).1).clocks cgid6 = some c' ∧
      storedTime c' Color.white =
        max 0 ((max 0 (storedTime c6clock Color.white - (2 - 0)) + ((5 : Int) : ℚ)) - (2 - 0)) ∧
      storedTime c' (otherColor Color.white) = storedTime c6clock (otherColor Color.white) ∧
      c'.active_player = some (otherColor Color.white) ∧
      c'.last_move_time = some 2 :=
  switch_turn_credits_only_previous_color cm6 cgid6 c6clock Color.white 0
    ⟨60, 5⟩ 2 2 2 rfl rfl rfl rfl (by decide)

/-- Closed form of get_remaining_time on an existing clock. -/
def grtValue (c : GameClock) (p : Color) (now : ℚ) : ℚ :=
  match c.active_player, c.last_move_time with
  | some q, some last =>
      if q = p then pyMax 0 (storedTime c p - (now - last)) else storedTime c p
  | _, _ => storedTime c p

theorem get_remaining_time_eq (m : ClockMgr) (gid : String) (c : GameClock)
    (p : Color) (now : ℚ) (hc : m.clocks gid = some c) :
    ChessClock.get_remaining_time m gid p now = some (grtValue c p now) := by
  unfold ChessClock.get_remaining_time grtValue
  rw [hc]
  obtain ⟨wt, bt, lmt, ap⟩ := c
  rcases ap with _ | q <;> rcases lmt with _ | l <;> try rfl
  by_cases hq : q = p <;> simp [hq]

/-- C7 (amended): for every existing clock, get_remaining_time returns the
stored time minus the elapsed time floored at 0 — hence never negative —
when that color is the active one (with its recorded start instant), and
returns the frozen stored value unchanged for a non-active color.  The
frozen value itself can be negative: time-control validation is dead code,
so a clock created with a negative initial time stores a negative value,
which get_remaining_time passes through (see
get_remaining_time_negative_counterexample). -/
theorem get_remaining_time_formula (m : ClockMgr) (gid : String) (c : GameClock)
    (p : Color) (now : ℚ) (hc : m.clocks gid = some c) :
    (∀ l, c.active_player = some p → c.last_move_time = some l →
      ChessClock.get_remaining_time m gid p now =
        some (max 0 (storedTime c p - (now - l)))) ∧
    (c.active_player ≠ some p →
      ChessClock.get_remaining_time m gid p now = some (storedTime c p)) ∧
    (∀ l r, c.active_player = some p → c.last_move_time = some l →
      ChessClock.get_remaining_time m gid p now = some r → 0 ≤ r) := by
  have heq := get_remaining_time_eq m gid c p now hc
  refine ⟨?_, ?_, ?_⟩
  · intro l hap hl
    rw [heq]
    unfold grtValue
    rw [hap, hl]
    simp [pyMax_eq_max]
  · intro hne
    rw [heq]
    unfold grtValue
    rcases hap : c.active_player with _ | q <;>
      rcases hl : c.last_move_time with _ | l <;> try rfl
    have hq : ¬ q = p := fun h => hne (h ▸ hap)
    simp [hq]
  · intro l r hap hl hr
    rw [heq, Option.some.injEq] at hr
    subst hr
    unfold grtValue
    rw [hap, hl]
    simp [pyMax_eq_max, le_max_iff]

/-- Witness for C7 (amended): in cm6 at instant 65, white (active since
instant 0 with 60s stored) has live remaining time max 0 (60 − 65) = 0 —
non-negative — and black keeps its frozen 90. -/
theorem get_remaining_time_formula_witness :
    (ChessClock.get_remaining_time cm6 cgid6 Color.white 65 =
        some (max 0 (storedTime c6clock Color.white - (65 - 0)))) ∧
    (ChessClock.get_remaining_time cm6 cgid6 Color.black 65 =
        some (storedTime c6clock Color.black)) ∧
    (∀ r, ChessClock.get_remaining_time cm6 cgid6 Color.white 65 = some r → 0 ≤ r) := by
  have hwhite := get_remaining_time_formula cm6 cgid6 c6clock Color.white 65 rfl
  have hblack := get_remaining_time_formula cm6 cgid6 c6clock Color.black 65 rfl
  exact ⟨hwhite.1 0 rfl rfl, hblack.2.1 (by decide),
    fun r hr => hwhite.2.2 0 r rfl rfl hr⟩

/-- C10: for every existing clock and color, the get_clock_state snapshot
reports exactly the get_remaining_time value whenever that value is
non-zero; when get_remaining_time is exactly 0 the Python `or` fallback
kicks in and the snapshot reports the stale stored time instead. -/
theorem get_clock_state_zero_fallback (m : ClockMgr) (gid : String)
    (c : GameClock) (now : ℚ) (p : Color) (hc : m.clocks gid = some c) :
    ∃ snap r, ChessClock.get_clock_state m gid now = some snap ∧
      ChessClock.get_remaining_time m gid p now = some r ∧
      (r ≠ 0 → storedTime snap p = r) ∧
      (r = 0 → storedTime snap p = storedTime c p) := by
  have heqW := get_remaining_time_eq m gid c Color.white now hc
  have heqB := get_remaining_time_eq m gid c Color.black now hc
  have hsnap : ChessClock.get_clock_state m gid now =
      some
        { white_time := ChessClock.pyOrFloat (some (grtValue c Color.white now)) c.white_time
          black_time := ChessClock.pyOrFloat (some (grtValue c Color.black now)) c.black_time
          last_move_time := c.last_move_time
          active_player := c.active_player } := by
    unfold ChessClock.get_clock_state
    rw [hc, heqW, heqB]
  cases p
  · refine ⟨_, grtValue c Color.white now, hsnap, heqW, ?_, ?_⟩
    · intro hne
      simp [storedTime, ChessClock.pyOrFloat, hne]
    · intro h0
      simp [storedTime, ChessClock.pyOrFloat, h0]
  · refine ⟨_, grtValue c Color.black now, hsnap, heqB, ?_, ?_⟩
    · intro hne
      simp [storedTime, ChessClock.pyOrFloat, hne]
    · intro h0
      simp [storedTime, ChessClock.pyOrFloat, h0]

/-- Witness for C10: in cm6 at instant 65 white's live remaining time is
exactly 0, and the snapshot falls back to white's stale stored time 60. -/
theorem get_clock_state_zero_fallback_witness :
    ∃ snap r, ChessClock.get_clock_state cm6 cgid6 65 = some snap ∧
      ChessClock.get_remaining_time cm6 cgid6 Color.white 65 = some r ∧
      r = 0 ∧ storedTime snap Color.white = 60 := by
  obtain ⟨snap, r, hsnap, hr, _, hzero⟩ :=
    get_clock_state_zero_fallback cm6 cgid6 c6clock 65 Color.white rfl
  have h0 : ChessClock.get_remaining_time cm6 cgid6 Color.white 65 =
      some (0 : ℚ) := by
    rw [get_remaining_time_eq cm6 cgid6 c6clock Color.white 65 rfl]
    norm_num [grtValue, c6clock, storedTime, pyMax]
  rw [h0] at hr
  have hr0 : r = 0 := (Option.some.inj hr).symm
  refine ⟨snap, r, hsnap, by rw [hr0]; exact h0, hr0, ?_⟩
  rw [hzero hr0]
  rfl


/-! ## Inversion lemmas for the GameManager operations -/

theorem except_bind_ok {α β : Type} (x : Except Err α) (f : α → Except Err β)
    (b : β) (h : Except.bind x f = .ok b) : ∃ a, x = .ok a ∧ f a = .ok b := by
  cases x with
  | error e => cases h
  | ok a => exact ⟨a, rfl, h⟩

theorem check_game_end_move_history (lib : ChessLib) (b : BoardPos) (g : Game) :
    (GameManager.check_game_end lib b g).move_history = g.move_history := by
  unfold GameManager.check_game_end
  split_ifs <;> rfl

theorem check_game_end_status (lib : ChessLib) (b : BoardPos) (g : Game) :
    (GameManager.check_game_end lib b g).status = g.status ∨
      (GameManager.check_game_end lib b g).status = GameStatus.finished := by
  unfold GameManager.check_game_end
  split_ifs <;> simp

theorem validate_game_id_ok (gid k : String)
    (h : validate_game_id gid = .ok k) : k = pyStrip gid := by
  unfold validate_game_id at h
  split at h
  · cases h
  · dsimp only at h
    split at h
    · cases h
    · exact (Except.ok.inj h).symm

theorem make_move_ok_inv (lib : ChessLib) (st : GameManager)
    (game_id f t : String) (pr : Option String) (now : ℚ)
    (st1 : GameManager) (g1 : Game) (r1 : MoveRec)
    (h : GameManager.make_move lib st game_id f t pr now = .ok (st1, g1, r1)) :
    ∃ game board move ms,
      st.games (pyStrip game_id) = some game ∧
      game.status = GameStatus.active ∧
      st.chess_boards (pyStrip game_id) = some board ∧
      st.move_stacks (pyStrip game_id) = some ms ∧
      st1.games = upd st.games (pyStrip game_id) (some g1) ∧
      st1.chess_boards = upd st.chess_boards (pyStrip game_id) (some (board ++ [move])) ∧
      st1.move_stacks = upd st.move_stacks (pyStrip game_id) (some (ms ++ [move])) ∧
      st1.redo_stacks = upd st.redo_stacks (pyStrip game_id) (some []) ∧
      g1.move_history = game.move_history ++ [r1] ∧
      (g1.status = GameStatus.active ∨ g1.status = GameStatus.finished) := by
  unfold GameManager.make_move at h
  obtain ⟨k, hv, h⟩ := except_bind_ok _ _ _ h
  obtain ⟨fmt, hfmt, h⟩ := except_bind_ok _ _ _ h
  obtain rfl : k = pyStrip game_id := validate_game_id_ok game_id k hv
  unfold GameManager.make_move_core at h
  obtain ⟨game, hg, h⟩ := except_bind_ok _ _ _ h
  obtain ⟨board, hb, h⟩ := except_bind_ok _ _ _ h
  obtain ⟨u, hguard, h⟩ := except_bind_ok _ _ _ h
  obtain ⟨move, hvc, h⟩ := except_bind_ok _ _ _ h
  obtain ⟨ms, hms, h⟩ := except_bind_ok _ _ _ h
  obtain ⟨rs, hrs, h⟩ := except_bind_ok _ _ _ h
  simp only [Except.ok.injEq, Prod.mk.injEq] at h
  obtain ⟨hst1, hg1, hr1⟩ := h
  subst hst1
  subst hg1
  subst hr1
  refine ⟨game, board, move, ms, getOrE_ok _ _ _ hg,
    GameManager.activeGuard_ok game u hguard, getOrE_ok _ _ _ hb,
    getOrE_ok _ _ _ hms, rfl, rfl, rfl, rfl, ?_, ?_⟩
  · rw [check_game_end_move_history]
  · rcases check_game_end_status lib (board ++ [move]) _ with hcs | hcs
    · rw [hcs]
      exact Or.inl (GameManager.activeGuard_ok game u hguard)
    · exact Or.inr hcs

theorem undo_move_ok_inv (lib : ChessLib) (st : GameManager) (gid : String)
    (now : ℚ) (st1 : GameManager) (g1 : Game)
    (h : GameManager.undo_move lib st gid now = .ok (st1, g1)) :
    ∃ game board ms undone rs,
      st.games gid = some game ∧
      st.chess_boards gid = some board ∧
      st.move_stacks gid = some ms ∧
      ms.getLast? = some undone ∧
      st.redo_stacks gid = some rs ∧
      st1.games = upd st.games gid (some g1) ∧
      st1.chess_boards = upd st.chess_boards gid (some board.dropLast) ∧
      st1.move_stacks = upd st.move_stacks gid (some ms.dropLast) ∧
      st1.redo_stacks = upd st.redo_stacks gid (some (rs ++ [undone])) ∧
      g1.move_history = game.move_history.dropLast ∧
      g1.status = (if game.status = GameStatus.finished then GameStatus.active
                   else game.status) ∧
      g1.result = (if game.status = GameStatus.finished then GameResult.ongoing
                   else game.result) := by
  unfold GameManager.undo_move at h
  obtain ⟨game, hg, h⟩ := except_bind_ok _ _ _ h
  obtain ⟨board, hb, h⟩ := except_bind_ok _ _ _ h
  obtain ⟨ms, hms, h⟩ := except_bind_ok _ _ _ h
  obtain ⟨undone, hlast, h⟩ := except_bind_ok _ _ _ h
  obtain ⟨w, hblast, h⟩ := except_bind_ok _ _ _ h
  obtain ⟨rs, hrs, h⟩ := except_bind_ok _ _ _ h
  simp only [Except.ok.injEq, Prod.mk.injEq] at h
  obtain ⟨hst1, hg1⟩ := h
  subst hst1
  subst hg1
  refine ⟨game, board, ms, undone, rs, getOrE_ok _ _ _ hg, getOrE_ok _ _ _ hb,
    getOrE_ok _ _ _ hms, getOrE_ok _ _ _ hlast, getOrE_ok _ _ _ hrs,
    rfl, rfl, rfl, rfl, ?_, ?_, ?_⟩ <;> split <;> rfl

theorem redo_move_ok_inv (lib : ChessLib) (st : GameManager) (gid : String)
    (now : ℚ) (st1 : GameManager) (g1 : Game)
    (h : GameManager.redo_move lib st gid now = .ok (st1, g1)) :
    ∃ game board rs mv ms,
      st.games gid = some game ∧
      st.chess_boards gid = some board ∧
      st.redo_stacks gid = some rs ∧
      rs.getLast? = some mv ∧
      st.move_stacks gid = some ms ∧
      st1.games = upd st.games gid (some g1) ∧
      st1.chess_boards = upd st.chess_boards gid (some (board ++ [mv])) ∧
      st1.move_stacks = upd st.move_stacks gid (some (ms ++ [mv])) ∧
      st1.redo_stacks = upd st.redo_stacks gid (some rs.dropLast) ∧
      g1.move_history.length = game.move_history.length + 1 ∧
      (g1.status = game.status ∨ g1.status = GameStatus.finished) := by
  unfold GameManager.redo_move at h
  obtain ⟨game, hg, h⟩ := except_bind_ok _ _ _ h
  obtain ⟨board, hb, h⟩ := except_bind_ok _ _ _ h
  obtain ⟨rs, hrs, h⟩ := except_bind_ok _ _ _ h
  obtain ⟨mv, hlast, h⟩ := except_bind_ok _ _ _ h
  obtain ⟨ms, hms, h⟩ := except_bind_ok _ _ _ h
  simp only [Except.ok.injEq, Prod.mk.injEq] at h
  obtain ⟨hst1, hg1⟩ := h
  subst hst1
  subst hg1
  refine ⟨game, board, rs, mv, ms, getOrE_ok _ _ _ hg, getOrE_ok _ _ _ hb,
    getOrE_ok _ _ _ hrs, getOrE_ok _ _ _ hlast, getOrE_ok _ _ _ hms,
    rfl, rfl, rfl, rfl, ?_, ?_⟩
  · rw [check_game_end_move_history]
    simp
  · rcases check_game_end_status lib (board ++ [mv]) _ with hcs | hcs
    · exact Or.inl hcs
    · exact Or.inr hcs

theorem join_game_ok_inv (st : GameManager) (gid : String) (p : Player)
    (now : ℚ) (st1 : GameManager) (g1 : Game)
    (h : GameManager.join_game st gid p now = .ok (st1, g1)) :
    ∃ game,
      st.games gid = some game ∧
      game.status = GameStatus.waiting ∧
      game.black_player = none ∧
      g1 = { game with black_player := some p, status := .active,
                       updated_at := now } ∧
      st1.games = upd st.games gid (some g1) ∧
      st1.chess_boards = st.chess_boards ∧
      st1.move_stacks = st.move_stacks ∧
      st1.redo_stacks = st.redo_stacks := by
  unfold GameManager.join_game at h
  obtain ⟨game, hg, h⟩ := except_bind_ok _ _ _ h
  split at h
  · cases h
  · rename_i hwait
    rcases hbp : game.black_player with _ | bp <;> simp only [hbp] at h
    · simp only [Except.ok.injEq, Prod.mk.injEq] at h
      obtain ⟨hst1, hg1⟩ := h
      subst hst1
      subst hg1
      exact ⟨game, getOrE_ok _ _ _ hg, not_not.mp hwait, hbp,
        rfl, rfl, rfl, rfl, rfl⟩
    · cases h

/-! ## Evaluation lemmas: the result of a successful undo / redo -/

/-- The game record produced by a successful undo_move. -/
def undoneGame (lib : ChessLib) (game : Game) (board : BoardPos) (now : ℚ) :
    Game :=
  let g1 := { game with
                current_fen := lib.fen board.dropLast
                current_turn := GameManager.turnString lib board.dropLast
                updated_at := now
                move_history := game.move_history.dropLast
                pgn_history := game.pgn_history.dropLast }
  if g1.status = GameStatus.finished then
    { g1 with status := .active, result := .ongoing }
  else g1

theorem undoneGame_move_history (lib : ChessLib) (game : Game)
    (board : BoardPos) (now : ℚ) :
    (undoneGame lib game board now).move_history = game.move_history.dropLast := by
  unfold undoneGame
  dsimp only
  split <;> rfl

theorem undo_move_eval (lib : ChessLib) (st : GameManager) (gid : String)
    (now : ℚ) (game : Game) (board : BoardPos) (ms : List CMove)
    (undone w : CMove) (rs : List CMove)
    (hg : st.games gid = some game) (hb : st.chess_boards gid = some board)
    (hms : st.move_stacks gid = some ms) (hlast : ms.getLast? = some undone)
    (hblast : board.getLast? = some w) (hrs : st.redo_stacks gid = some rs) :
    GameManager.undo_move lib st gid now =
      .ok (⟨upd st.games gid (some (undoneGame lib game board now)),
            upd st.chess_boards gid (some board.dropLast),
            upd st.move_stacks gid (some ms.dropLast),
            upd st.redo_stacks gid (some (rs ++ [undone]))⟩,
           undoneGame lib game board now) := by
  unfold GameManager.undo_move
  rw [hg, hb, hms, hrs]
  simp only [getOrE, Except.bind]
  rw [hlast, hblast]
  simp only [getOrE, Except.bind]
  rfl

/-- The game record produced by a successful redo_move. -/
def redoneGame (lib : ChessLib) (game : Game) (board : BoardPos) (mv : CMove)
    (now : ℚ) : Game :=
  GameManager.check_game_end lib (board ++ [mv])
    { game with
        current_fen := lib.fen (board ++ [mv])
        current_turn := GameManager.turnString lib (board ++ [mv])
        updated_at := now
        move_history := game.move_history ++
          [{ from_square := mv.from_sq
             to_square := mv.to_sq
             promotion := mv.promo.map GameManager.piece_name
             fen_after_move := lib.fen (board ++ [mv])
             timestamp := now
             move_number := game.move_history.length + 1
             san := lib.san board mv }]
        pgn_history := game.pgn_history ++ [lib.san board mv] }

theorem redoneGame_move_history_length (lib : ChessLib) (game : Game)
    (board : BoardPos) (mv : CMove) (now : ℚ) :
    (redoneGame lib game board mv now).move_history.length =
      game.move_history.length + 1 := by
  unfold redoneGame
  rw [check_game_end_move_history]
  simp

theorem redo_move_eval (lib : ChessLib) (st : GameManager) (gid : String)
    (now : ℚ) (game : Game) (board : BoardPos) (rs : List CMove) (mv : CMove)
    (ms : List CMove)
    (hg : st.games gid = some game) (hb : st.chess_boards gid = some board)
    (hrs : st.redo_stacks gid = some rs) (hlast : rs.getLast? = some mv)
    (hms : st.move_stacks gid = some ms) :
    GameManager.redo_move lib st gid now =
      .ok (⟨upd st.games gid (some (redoneGame lib game board mv now)),
            upd st.chess_boards gid (some (board ++ [mv])),
            upd st.move_stacks gid (some (ms ++ [mv])),
            upd st.redo_stacks gid (some rs.dropLast)⟩,
           redoneGame lib game board mv now) := by
  unfold GameManager.redo_move
  rw [hg, hb, hrs, hms]
  simp only [getOrE, Except.bind]
  rw [hlast]
  simp only [getOrE, Except.bind]
  rfl

/-! ## Claim theorems about the undo/redo ledger -/

/-- C3: whenever applyMove succeeds, a following undoMove restores the chess
position (the Position Authority's board) to its pre-move value and the move
ledger to its prior length, and applyMove; undoMove; redoMove leaves the
ledger at exactly the length it had after applyMove alone. -/
theorem make_undo_redo_roundtrip (lib : ChessLib) (st : GameManager)
    (game_id f t : String) (pr : Option String) (n1 n2 n3 : ℚ)
    (st1 : GameManager) (g1 : Game) (r1 : MoveRec)
    (hmk : GameManager.make_move lib st game_id f t pr n1 = .ok (st1, g1, r1)) :
    ∃ g0 st2 g2 st3 g3,
      st.games (pyStrip game_id) = some g0 ∧
      GameManager.undo_move lib st1 (pyStrip game_id) n2 = .ok (st2, g2) ∧
      st2.chess_boards (pyStrip game_id) = st.chess_boards (pyStrip game_id) ∧
      g2.move_history.length = g0.move_history.length ∧
      GameManager.redo_move lib st2 (pyStrip game_id) n3 = .ok (st3, g3) ∧
      g3.move_history.length = g1.move_history.length := by
  obtain ⟨game, board, move, ms, hg, hact, hb, hms, h1g, h1b, h1m, h1r,
    hmh, hstat⟩ := make_move_ok_inv lib st game_id f t pr n1 st1 g1 r1 hmk
  have hg1 : st1.games (pyStrip game_id) = some g1 := by rw [h1g, upd_same]
  have hb1 : st1.chess_boards (pyStrip game_id) = some (board ++ [move]) := by
    rw [h1b, upd_same]
  have hm1 : st1.move_stacks (pyStrip game_id) = some (ms ++ [move]) := by
    rw [h1m, upd_same]
  have hr1 : st1.redo_stacks (pyStrip game_id) = some [] := by
    rw [h1r, upd_same]
  have hu := undo_move_eval lib st1 (pyStrip game_id) n2 g1 (board ++ [move])
    (ms ++ [move]) move move [] hg1 hb1 hm1 (List.getLast?_concat _)
    (List.getLast?_concat _) hr1
  set g2 := undoneGame lib g1 (board ++ [move]) n2 with hg2
  set st2 : GameManager :=
    ⟨upd st1.games (pyStrip game_id) (some g2),
     upd st1.chess_boards (pyStrip game_id) (some (board ++ [move]).dropLast),
     upd st1.move_stacks (pyStrip game_id) (some (ms ++ [move]).dropLast),
     upd st1.redo_stacks (pyStrip game_id) (some ([] ++ [move]))⟩ with hst2
  have hg2mh : g2.move_history.length = game.move_history.length := by
    rw [hg2, undoneGame_move_history, hmh]
    simp
  have hdrop : (board ++ [move]).dropLast = board := List.dropLast_concat
  have hdropm : (ms ++ [move]).dropLast = ms := List.dropLast_concat
  have hst2g : st2.games (pyStrip game_id) = some g2 := upd_same _ _ _
  have hst2b : st2.chess_boards (pyStrip game_id) = some board := by
    rw [hst2]
    show upd st1.chess_boards (pyStrip game_id) (some (board ++ [move]).dropLast)
        (pyStrip game_id) = some board
    rw [upd_same, hdrop]
  have hst2r : st2.redo_stacks (pyStrip game_id) = some [move] := by
    rw [hst2]
    show upd st1.redo_stacks (pyStrip game_id) (some ([] ++ [move]))
        (pyStrip game_id) = some [move]
    rw [upd_same]
    rfl
  have hst2m : st2.move_stacks (pyStrip game_id) = some ms := by
    rw [hst2]
    show upd st1.move_stacks (pyStrip game_id) (some (ms ++ [move]).dropLast)
        (pyStrip game_id) = some ms
    rw [upd_same, hdropm]
  have hrd := redo_move_eval lib st2 (pyStrip game_id) n3 g2 board [move] move
    ms hst2g hst2b hst2r (by rfl) hst2m
  refine ⟨game, st2, g2, _, _, hg, ?_, ?_, hg2mh, hrd, ?_⟩
  · rw [hu]
  · rw [hst2b, hb]
  · rw [redoneGame_move_history_length, hg2mh, hmh]
    simp

/-- C4: every successful applyMove leaves the redo buffer empty, and every
successful undoMove leaves the redo buffer exactly one element longer than
before the call. -/
theorem redo_buffer_discipline (lib : ChessLib) :
    (∀ st game_id f t pr now st1 g1 r1,
        GameManager.make_move lib st game_id f t pr now = .ok (st1, g1, r1) →
        st1.redo_stacks (pyStrip game_id) = some []) ∧
    (∀ st gid now st1 g1,
        GameManager.undo_move lib st gid now = .ok (st1, g1) →
        ∃ rs rs', st.redo_stacks gid = some rs ∧
          st1.redo_stacks gid = some rs' ∧ rs'.length = rs.length + 1) := by
  constructor
  · intro st game_id f t pr now st1 g1 r1 h
    obtain ⟨_, _, _, _, _, _, _, _, _, _, _, h1r, _, _⟩ :=
      make_move_ok_inv lib st game_id f t pr now st1 g1 r1 h
    rw [h1r, upd_same]
  · intro st gid now st1 g1 h
    obtain ⟨game, board, ms, undone, rs, _, _, _, _, hrs, _, _, _, h1r, _, _, _⟩ :=
      undo_move_ok_inv lib st gid now st1 g1 h
    refine ⟨rs, rs ++ [undone], hrs, ?_, by simp⟩
    rw [h1r, upd_same]

/-! ## Concrete fixtures for witnesses and counterexamples -/

/-- The move e2-e4. -/
def e2e4 : CMove := ⟨"e2", "e4", none⟩

/-- A concrete, fully computable Position Authority used to instantiate the
theorems on closed runs: e2-e4 is always the unique legal move, no position
is terminal, and the side to move alternates with the stack depth. -/
def trivLib : ChessLib :=
  { legal_moves := fun _ => [e2e4]
    san := fun _ _ => "e4"
    fen := fun b => if b.length % 2 = 0 then "w-to-move" else "b-to-move"
    turn := fun b => if b.length % 2 = 0 then .white else .black
    is_checkmate := fun _ => false
    is_stalemate := fun _ => false
    is_check := fun _ => false
    is_insufficient_material := fun _ => false
    is_seventyfive_moves := fun _ => false
    is_fivefold_repetition := fun _ => false }

def alice : Player := ⟨"alice-id-0001", "alice", 1500⟩

def bob : Player := ⟨"bob-id-000001", "bob", 1400⟩

/-! ## Claim theorem C9: undo does not touch the Clock Engine -/

/-- C9: a successful undoMove (the api.undo_move endpoint) leaves the entire
Clock Engine state — both colors' stored times, the active color, the start
instant, the timer tasks, and the callbacks — exactly as it was. -/
theorem undo_move_leaves_clock_unchanged (lib : ChessLib) (s : ServerState)
    (gid : String) (now : ℚ) (out : ServerState × Game)
    (h : api_undo_move lib s gid now = .ok out) : out.1.clock = s.clock := by
  unfold api_undo_move at h
  split at h
  · cases h
  · cases h
    rfl

/-- The server state reached by creating a timed game for alice/bob (white's
clock starts at instant 0) and playing e2-e4 at instant 2. -/
def gid1 : String := "11111111-2222-3333"

def sC1 : ServerState :=
  (api_create_game initServer gid1 alice (some bob) (some ⟨300, 0⟩) 0).1

def sMv : ServerState :=
  match api_make_move trivLib sC1 gid1 "e2" "e4" none 2 with
  | .ok out => out.1
  | .error _ => sC1

/-- Witness for C9: on the concrete post-move state, undo succeeds and the
clock component is untouched. -/
theorem undo_move_leaves_clock_unchanged_witness :
    ∃ out, api_undo_move trivLib sMv gid1 3 = .ok out ∧
      out.1.clock = sMv.clock := by
  refine ⟨_, rfl, undo_move_leaves_clock_unchanged trivLib sMv gid1 3 _ rfl⟩

/-! ## Claim theorems C8: queries on an unknown session -/

/-- C8 counterexample: on an unknown session identifier, getLegalMoves does
NOT return an empty list — it raises ValueError ("Game not found"). -/
theorem get_legal_moves_unknown_counterexample :
    GameManager.get_legal_moves trivLib initServer.gm "missing-session-0001" =
      .error (.valueError "Game not found") ∧
    GameManager.get_legal_moves trivLib initServer.gm "missing-session-0001" ≠
      .ok [] := by
  have h1 : GameManager.get_legal_moves trivLib initServer.gm
      "missing-session-0001" = .error (.valueError "Game not found") := rfl
  exact ⟨h1, fun h => Except.noConfusion (h1.symm.trans h)⟩

/-- C8 (amended): on an unknown session identifier, getLegalMoves raises
ValueError while isCheck, isCheckmate, isStalemate and isDraw each return
false without failing. -/
theorem unknown_session_queries (lib : ChessLib) (st : GameManager)
    (gid : String) (hc : st.chess_boards gid = none) :
    GameManager.get_legal_moves lib st gid = .error (.valueError "Game not found") ∧
    GameManager.is_check lib st gid = false ∧
    GameManager.is_checkmate lib st gid = false ∧
    GameManager.is_stalemate lib st gid = false ∧
    GameManager.is_draw lib st gid = false := by
  refine ⟨?_, ?_, ?_, ?_, ?_⟩ <;>
    simp only [GameManager.get_legal_moves, GameManager.is_check,
      GameManager.is_checkmate, GameManager.is_stalemate, GameManager.is_draw,
      hc]

/-- Witness for C8 (amended): the unknown identifier "missing-session-0001"
on the empty manager. -/
theorem unknown_session_queries_witness :
    GameManager.get_legal_moves trivLib initServer.gm "missing-session-0001" =
      .error (.valueError "Game not found") ∧
    GameManager.is_check trivLib initServer.gm "missing-session-0001" = false ∧
    GameManager.is_checkmate trivLib initServer.gm "missing-session-0001" = false ∧
    GameManager.is_stalemate trivLib initServer.gm "missing-session-0001" = false ∧
    GameManager.is_draw trivLib initServer.gm "missing-session-0001" = false :=
  unknown_session_queries trivLib initServer.gm "missing-session-0001" rfl

/-! ## Claim theorems C3 / C4 witnesses -/

/-- Witness for C3: the concrete run create, e2-e4, undo, redo. -/
theorem make_undo_redo_roundtrip_witness :
    ∃ st1 g1 r1,
      GameManager.make_move trivLib sC1.gm gid1 "e2" "e4" none 2 = .ok (st1, g1, r1) ∧
      ∃ g0 st2 g2 st3 g3,
        sC1.gm.games (pyStrip gid1) = some g0 ∧
        GameManager.undo_move trivLib st1 (pyStrip gid1) 3 = .ok (st2, g2) ∧
        st2.chess_boards (pyStrip gid1) = sC1.gm.chess_boards (pyStrip gid1) ∧
        g2.move_history.length = g0.move_history.length ∧
        GameManager.redo_move trivLib st2 (pyStrip gid1) 4 = .ok (st3, g3) ∧
        g3.move_history.length = g1.move_history.length :=
  ⟨_, _, _, rfl,
    make_undo_redo_roundtrip trivLib sC1.gm gid1 "e2" "e4" none 2 3 4 _ _ _ rfl⟩

/-- Witness for C4: after e2-e4 the redo buffer is empty; after the
subsequent undo it has exactly one element. -/
theorem redo_buffer_discipline_witness :
    (∃ st1 g1 r1,
        GameManager.make_move trivLib sC1.gm gid1 "e2" "e4" none 2 = .ok (st1, g1, r1) ∧
        st1.redo_stacks (pyStrip gid1) = some []) ∧
    (∃ st2 g2 rs rs',
        GameManager.undo_move trivLib sMv.gm gid1 3 = .ok (st2, g2) ∧
        sMv.gm.redo_stacks gid1 = some rs ∧
        st2.redo_stacks gid1 = some rs' ∧ rs'.length = rs.length + 1) := by
  constructor
  · exact ⟨_, _, _, rfl,
      (redo_buffer_discipline trivLib).1 sC1.gm gid1 "e2" "e4" none 2 _ _ _ rfl⟩
  · obtain ⟨rs, rs', h1, h2, h3⟩ :=
      (redo_buffer_discipline trivLib).2 sMv.gm gid1 3 _ _ rfl
    exact ⟨_, _, rs, rs', rfl, h1, h2, h3⟩

/-! ## Claim theorem C2: time-control validation is never invoked -/

def gid2 : String := "22222222-3333-4444"

/-- C2: the validator GameValidator.validate_time_control would reject a
non-positive initial time, but neither api.create_game nor
GameManager.create_game ever calls it: a create request with
initial_time = −5 succeeds, stores the session, and even creates a clock
with −5 seconds on each side. -/
theorem create_skips_time_control_validation :
    validate_time_control (-5) 0 =
      .error (.validation "initial_time" "Initial time must be positive") ∧
    ∃ g, (api_create_game initServer gid2 alice (some bob) (some ⟨-5, 0⟩) 0).2 = g ∧
      (api_create_game initServer gid2 alice (some bob) (some ⟨-5, 0⟩) 0).1.gm.games gid2
        = some g ∧
      g.time_control = some ⟨-5, 0⟩ ∧
      g.status = GameStatus.active ∧
      ∃ c, (api_create_game initServer gid2 alice (some bob) (some ⟨-5, 0⟩) 0).1.clock.clocks gid2
          = some c ∧
        c.white_time = ((-5 : Int) : ℚ) ∧ c.black_time = ((-5 : Int) : ℚ) := by
  refine ⟨rfl, _, rfl, rfl, rfl, rfl, _, rfl, ?_, ?_⟩ <;> rfl

def gid7 : String := "77777777-8888-9999"

/-- The server state after a create carrying the malformed time control
initial_time = −5, which the dead validation lets through: the stored clock
has −5 seconds per side, white active since instant 0. -/
def sNeg : ServerState :=
  (api_create_game initServer gid7 alice (some bob) (some ⟨-5, 0⟩) 0).1

/-- C7 counterexample: get_remaining_time CAN return a negative number.  On
the reachable clock of sNeg (created with initial_time = −5), the frozen
stored value reported for the inactive color black is −5 < 0. -/
theorem get_remaining_time_negative_counterexample :
    ChessClock.get_remaining_time sNeg.clock gid7 Color.black 0 =
      some ((-5 : Int) : ℚ) ∧
    ((-5 : Int) : ℚ) < 0 :=
  ⟨rfl, by norm_num⟩

/-! ## Claim theorem C1: time expiry is never observed by the Coordinator -/

/-- The clock record sC1 stores for gid1: both sides 300s, white active
since instant 0. -/
def cC1 : GameClock :=
  { white_time := ((300 : Int) : ℚ)
    black_time := ((300 : Int) : ℚ)
    last_move_time := some 0
    active_player := some .white }

theorem sC1_clock : sC1.clock.clocks gid1 = some cC1 := rfl

theorem sC1_callbacks : sC1.clock.callbacks gid1 = false := rfl

theorem sC1_remaining_zero :
    ChessClock.get_remaining_time sC1.clock gid1 Color.white 300 = some 0 := by
  rw [get_remaining_time_eq sC1.clock gid1 cC1 Color.white 300 sC1_clock]
  unfold grtValue cC1 storedTime
  norm_num [pyMax]

theorem countdown_tick_expired_noop :
    countdown_tick sC1 gid1 Color.white 300 = sC1 := by
  unfold countdown_tick
  rw [sC1_clock]
  dsimp only
  rw [sC1_remaining_zero]
  dsimp only
  rw [if_pos le_rfl, sC1_callbacks]
  rfl

/-- C1: the countdown tick at the instant white's remaining time reaches 0
does nothing, because clock_manager.callbacks has no entry for the game —
WebSocketHandler.__init__ only overwrites the set_callback attribute and no
code ever invokes it.  The game stays Active with result Ongoing, the clock
keeps running, and a subsequent applyMove still succeeds instead of failing
with InvalidState. -/
theorem time_expiry_is_never_observed :
    ChessClock.get_remaining_time sC1.clock gid1 Color.white 300 = some 0 ∧
    sC1.clock.running_timers gid1 = true ∧
    sC1.clock.callbacks gid1 = false ∧
    countdown_tick sC1 gid1 Color.white 300 = sC1 ∧
    (∃ g, sC1.gm.games gid1 = some g ∧ g.status = GameStatus.active ∧
      g.result = GameResult.ongoing) ∧
    (∃ out, api_make_move trivLib (countdown_tick sC1 gid1 Color.white 300)
        gid1 "e2" "e4" none 301 = .ok out ∧ out.2.1.status = GameStatus.active) := by
  refine ⟨sC1_remaining_zero, rfl, sC1_callbacks, countdown_tick_expired_noop,
    ⟨_, rfl, rfl, rfl⟩, ?_⟩
  rw [countdown_tick_expired_noop]
  exact ⟨_, rfl, rfl⟩

/-- The intended expiry path does exist in the code: _handle_time_up on an
Active session would set status Finished, result BlackWins for a white
expiry, and pause the clock — it is just never triggered (see
time_expiry_is_never_observed). -/
theorem handle_time_up_would_finish (s : ServerState) (game_id : String)
    (p : Color) (now : ℚ) (g : Game)
    (hget : GameManager.get_game_state s.gm game_id = .ok g)
    (hact : g.status = GameStatus.active) :
    ∃ g', (handle_time_up s game_id p now).gm.games (pyStrip game_id) = some g' ∧
      g'.status = GameStatus.finished ∧
      g'.result = (if p = Color.white then GameResult.blackWins
                   else GameResult.whiteWins) ∧
      (handle_time_up s game_id p now).clock =
        (ChessClock.pause s.clock game_id now).1 := by
  unfold handle_time_up
  rw [hget]
  dsimp only
  rw [if_pos hact]
  exact ⟨_, upd_same _ _ _, rfl, rfl, rfl⟩

/-! ## Server-level inversion lemmas -/

theorem api_make_move_ok_inv (lib : ChessLib) (s : ServerState)
    (game_id f t : String) (pr : Option String) (now : ℚ)
    (out : ServerState × Game × MoveRec)
    (h : api_make_move lib s game_id f t pr now = .ok out) :
    GameManager.make_move lib s.gm game_id f t pr now =
      .ok (out.1.gm, out.2.1, out.2.2) := by
  unfold api_make_move at h
  rcases hm : GameManager.make_move lib s.gm game_id f t pr now with e | ⟨gm2, g, r⟩ <;>
    rw [hm] at h
  · cases h
  · dsimp only at h
    cases h
    rfl

theorem api_join_game_ok_inv (s : ServerState) (gid : String) (p : Player)
    (now : ℚ) (out : ServerState × Game)
    (h : api_join_game s gid p now = .ok out) :
    GameManager.join_game s.gm gid p now = .ok (out.1.gm, out.2) := by
  unfold api_join_game at h
  rcases hm : GameManager.join_game s.gm gid p now with e | ⟨gm2, g⟩ <;>
    rw [hm] at h
  · cases h
  · dsimp only at h
    cases h
    rfl

theorem api_undo_move_ok_inv (lib : ChessLib) (s : ServerState) (gid : String)
    (now : ℚ) (out : ServerState × Game)
    (h : api_undo_move lib s gid now = .ok out) :
    GameManager.undo_move lib s.gm gid now = .ok (out.1.gm, out.2) := by
  unfold api_undo_move at h
  rcases hm : GameManager.undo_move lib s.gm gid now with e | ⟨gm2, g⟩ <;>
    rw [hm] at h
  · cases h
  · cases h
    rfl

theorem api_redo_move_ok_inv (lib : ChessLib) (s : ServerState) (gid : String)
    (now : ℚ) (out : ServerState × Game)
    (h : api_redo_move lib s gid now = .ok out) :
    GameManager.redo_move lib s.gm gid now = .ok (out.1.gm, out.2) := by
  unfold api_redo_move at h
  rcases hm : GameManager.redo_move lib s.gm gid now with e | ⟨gm2, g⟩ <;>
    rw [hm] at h
  · cases h
  · cases h
    rfl

theorem get_game_state_ok_inv (st : GameManager) (game_id : String) (g : Game)
    (h : GameManager.get_game_state st game_id = .ok g) :
    st.games (pyStrip game_id) = some g := by
  unfold GameManager.get_game_state at h
  obtain ⟨k, hv, h⟩ := except_bind_ok _ _ _ h
  obtain rfl : k = pyStrip game_id := validate_game_id_ok game_id k hv
  exact getOrE_ok _ _ _ h

/-- Effect of _handle_time_up on the session store: either nothing changes,
or the (validated-id) session was Active and is marked Finished with a win
for the non-expired color; the board/stack dicts never change. -/
theorem handle_time_up_cases (s : ServerState) (game_id : String) (p : Color)
    (now : ℚ) :
    ((handle_time_up s game_id p now).gm = s.gm) ∨
    (∃ g, GameManager.get_game_state s.gm game_id = .ok g ∧
      g.status = GameStatus.active ∧
      (handle_time_up s game_id p now).gm.games =
        upd s.gm.games (pyStrip game_id)
          (some { g with
                    status := .finished
                    result := if p = Color.white then .blackWins else .whiteWins }) ∧
      (handle_time_up s game_id p now).gm.chess_boards = s.gm.chess_boards ∧
      (handle_time_up s game_id p now).gm.move_stacks = s.gm.move_stacks ∧
      (handle_time_up s game_id p now).gm.redo_stacks = s.gm.redo_stacks) := by
  unfold handle_time_up
  rcases hget : GameManager.get_game_state s.gm game_id with e | g
  · exact Or.inl rfl
  · dsimp only
    by_cases hact : g.status = GameStatus.active
    · rw [if_pos hact]
      exact Or.inr ⟨g, rfl, hact, rfl, rfl, rfl, rfl⟩
    · rw [if_neg hact]
      exact Or.inl rfl

/-! ## The session-store invariant and the status-transition theorem (C5) -/

/-- Invariant on reachable session stores: no session is ever Abandoned, and
a Waiting session has never had a move (empty move stack and redo buffer). -/
def GoodState (s : ServerState) : Prop :=
  ∀ gid g, s.gm.games gid = some g →
    g.status ≠ GameStatus.abandoned ∧
    (g.status = GameStatus.waiting →
      s.gm.move_stacks gid = some [] ∧ s.gm.redo_stacks gid = some [])

theorem goodState_init : GoodState initServer := by
  intro gid g hg
  cases hg

theorem goodState_step (lib : ChessLib) (s : ServerState) (op : Op) (now : ℚ)
    (s' : ServerState) (hgood : GoodState s)
    (hstep : stepOp lib s op now = .ok s') : GoodState s' := by
  cases op with
  | create gid w b tc =>
      unfold stepOp at hstep
      dsimp only at hstep
      rcases hfresh : s.gm.games gid with _ | gold <;> rw [hfresh] at hstep
      · cases hstep
        intro gid2 g2 hg2
        by_cases hk : gid2 = gid
        · subst hk
          unfold api_create_game GameManager.create_game at hg2
          dsimp only at hg2
          rw [upd_same] at hg2
          cases hg2
          refine ⟨?_, fun _ => ?_⟩
          · cases b <;> simp
          · unfold api_create_game GameManager.create_game
            dsimp only
            rw [upd_same, upd_same]
            exact ⟨rfl, rfl⟩
        · unfold api_create_game GameManager.create_game at hg2 ⊢
          dsimp only at hg2 ⊢
          rw [upd_other _ _ _ _ hk] at hg2
          rw [upd_other _ _ _ _ hk, upd_other _ _ _ _ hk]
          exact hgood gid2 g2 hg2
      · cases hstep
  | join gid p =>
      unfold stepOp at hstep
      dsimp only at hstep
      rcases hj : api_join_game s gid p now with e | out <;> rw [hj] at hstep
      · cases hstep
      · cases hstep
        obtain ⟨game, hg, hwait, hbp, hg1, hgames, hb, hm, hr⟩ :=
          join_game_ok_inv s.gm gid p now out.1.gm out.2 (api_join_game_ok_inv s gid p now out hj)
        intro gid2 g2 hg2
        rw [hgames] at hg2
        by_cases hk : gid2 = gid
        · subst hk
          rw [upd_same] at hg2
          cases hg2
          rw [hg1]
          exact ⟨by simp, fun hcontra => by cases hcontra⟩
        · rw [upd_other _ _ _ _ hk] at hg2
          rw [hm, hr]
          exact hgood gid2 g2 hg2
  | move gid f t pr =>
      unfold stepOp at hstep
      dsimp only at hstep
      rcases hm : api_make_move lib s gid f t pr now with e | out <;> rw [hm] at hstep
      · cases hstep
      · cases hstep
        obtain ⟨game, board, move, ms, hg, hact, hb, hms, h1g, h1b, h1m, h1r,
          hmh, hstat⟩ := make_move_ok_inv lib s.gm gid f t pr now out.1.gm
            out.2.1 out.2.2 (api_make_move_ok_inv lib s gid f t pr now out hm)
        intro gid2 g2 hg2
        rw [h1g] at hg2
        by_cases hk : gid2 = pyStrip gid
        · subst hk
          rw [upd_same] at hg2
          cases hg2
          rcases hstat with h | h <;>
            exact ⟨by rw [h]; simp, fun hcontra => by rw [h] at hcontra; cases hcontra⟩
        · rw [upd_other _ _ _ _ hk] at hg2
          rw [h1m, h1r, upd_other _ _ _ _ hk, upd_other _ _ _ _ hk]
          exact hgood gid2 g2 hg2
  | undo gid =>
      unfold stepOp at hstep
      dsimp only at hstep
      rcases hu : api_undo_move lib s gid now with e | out <;> rw [hu] at hstep
      · cases hstep
      · cases hstep
        obtain ⟨game, board, ms, undone, rs, hg, hb, hms, hlast, hrs, h1g, h1b,
          h1m, h1r, hmh, hst, hres⟩ := undo_move_ok_inv lib s.gm gid now
            out.1.gm out.2 (api_undo_move_ok_inv lib s gid now out hu)
        intro gid2 g2 hg2
        rw [h1g] at hg2
        by_cases hk : gid2 = gid
        · subst hk
          rw [upd_same] at hg2
          cases hg2
          have hgnotab := (hgood gid2 game hg).1
          constructor
          · rw [hst]
            split
            · simp
            · exact hgnotab
          · intro hwait
            rw [hst] at hwait
            split at hwait
            · cases hwait
            · exfalso
              have := ((hgood gid2 game hg).2 hwait).1
              rw [hms] at this
              cases this
              cases hlast
        · rw [upd_other _ _ _ _ hk] at hg2
          rw [h1m, h1r, upd_other _ _ _ _ hk, upd_other _ _ _ _ hk]
          exact hgood gid2 g2 hg2
  | redo gid =>
      unfold stepOp at hstep
      dsimp only at hstep
      rcases hr0 : api_redo_move lib s gid now with e | out <;> rw [hr0] at hstep
      · cases hstep
      · cases hstep
        obtain ⟨game, board, rs, mv, ms, hg, hb, hrs, hlast, hms, h1g, h1b,
          h1m, h1r, hmh, hstat⟩ := redo_move_ok_inv lib s.gm gid now
            out.1.gm out.2 (api_redo_move_ok_inv lib s gid now out hr0)
        intro gid2 g2 hg2
        rw [h1g] at hg2
        by_cases hk : gid2 = gid
        · subst hk
          rw [upd_same] at hg2
          cases hg2
          have hgnotab := (hgood gid2 game hg).1
          have hnotwait : game.status ≠ GameStatus.waiting := by
            intro hwait
            have := ((hgood gid2 game hg).2 hwait).2
            rw [hrs] at this
            cases this
            cases hlast
          constructor
          · rcases hstat with h | h
            · rw [h]; exact hgnotab
            · rw [h]; simp
          · intro hwait
            rcases hstat with h | h
            · rw [h] at hwait; exact absurd hwait hnotwait
            · rw [h] at hwait; cases hwait
        · rw [upd_other _ _ _ _ hk] at hg2
          rw [h1m, h1r, upd_other _ _ _ _ hk, upd_other _ _ _ _ hk]
          exact hgood gid2 g2 hg2
  | timeUp gid p =>
      unfold stepOp at hstep
      dsimp only at hstep
      cases hstep
      rcases handle_time_up_cases s gid p now with hsame | ⟨g, hget, hact, hgames, hb, hm, hr⟩
      · intro gid2 g2 hg2
        rw [hsame] at hg2
        have hres := hgood gid2 g2 hg2
        rw [hsame]
        exact hres
      · intro gid2 g2 hg2
        rw [hgames] at hg2
        by_cases hk : gid2 = pyStrip gid
        · subst hk
          rw [upd_same] at hg2
          cases hg2
          exact ⟨by simp, fun hcontra => by cases hcontra⟩
        · rw [upd_other _ _ _ _ hk] at hg2
          rw [hm, hr]
          exact hgood gid2 g2 hg2

theorem reachable_goodState (lib : ChessLib) (s : ServerState)
    (h : Reachable lib s) : GoodState s := by
  induction h with
  | init => exact goodState_init
  | step s op now s' _ hstep ih => exact goodState_step lib s op now s' ih hstep

/-- The status transitions the spec allows: no change, Waiting→Active (only
by join), Active→Finished, or Finished→Active (only by undo). -/
def allowedStatusStep (op : Op) (a b : GameStatus) : Prop :=
  a = b ∨
  (a = GameStatus.waiting ∧ b = GameStatus.active ∧ ∃ gid p, op = Op.join gid p) ∨
  (a = GameStatus.active ∧ b = GameStatus.finished) ∨
  (a = GameStatus.finished ∧ b = GameStatus.active ∧ ∃ gid, op = Op.undo gid)

/-- C5: on every reachable server state, every operation (create, join,
applyMove, undoMove, redoMove, time-expiry handling) moves every session's
status only along Waiting→Active (join), Active→Finished, or
Finished→Active (undo); no other status transition is reachable. -/
theorem status_transitions (lib : ChessLib) (s : ServerState)
    (hreach : Reachable lib s) (op : Op) (now : ℚ) (s' : ServerState)
    (hstep : stepOp lib s op now = .ok s') (gid : String) (g g' : Game)
    (hg : s.gm.games gid = some g) (hg' : s'.gm.games gid = some g') :
    allowedStatusStep op g.status g'.status := by
  have hgood := reachable_goodState lib s hreach
  cases op with
  | create gid0 w b tc =>
      unfold stepOp at hstep
      dsimp only at hstep
      rcases hfresh : s.gm.games gid0 with _ | gold <;> rw [hfresh] at hstep
      · cases hstep
        have hk : gid ≠ gid0 := by
          intro hcontra
          rw [hcontra, hfresh] at hg
          cases hg
        unfold api_create_game GameManager.create_game at hg'
        dsimp only at hg'
        rw [upd_other _ _ _ _ hk] at hg'
        rw [hg] at hg'
        cases hg'
        exact Or.inl rfl
      · cases hstep
  | join gid0 p =>
      unfold stepOp at hstep
      dsimp only at hstep
      rcases hj : api_join_game s gid0 p now with e | out <;> rw [hj] at hstep
      · cases hstep
      · cases hstep
        obtain ⟨game, hgame, hwait, hbp, hg1, hgames, _, _, _⟩ :=
          join_game_ok_inv s.gm gid0 p now out.1.gm out.2
            (api_join_game_ok_inv s gid0 p now out hj)
        rw [hgames] at hg'
        by_cases hk : gid = gid0
        · subst hk
          rw [upd_same] at hg'
          cases hg'
          rw [hg] at hgame
          cases hgame
          refine Or.inr (Or.inl ⟨hwait, ?_, gid, p, rfl⟩)
          rw [hg1]
        · rw [upd_other _ _ _ _ hk, hg] at hg'
          cases hg'
          exact Or.inl rfl
  | move gid0 f t pr =>
      unfold stepOp at hstep
      dsimp only at hstep
      rcases hm : api_make_move lib s gid0 f t pr now with e | out <;> rw [hm] at hstep
      · cases hstep
      · cases hstep
        obtain ⟨game, board, move, ms, hgame, hact, _, _, h1g, _, _, _,
          _, hstat⟩ := make_move_ok_inv lib s.gm gid0 f t pr now out.1.gm
            out.2.1 out.2.2 (api_make_move_ok_inv lib s gid0 f t pr now out hm)
        rw [h1g] at hg'
        by_cases hk : gid = pyStrip gid0
        · subst hk
          rw [upd_same] at hg'
          cases hg'
          rw [hg] at hgame
          cases hgame
          rcases hstat with h | h
          · exact Or.inl (by rw [h, hact])
          · exact Or.inr (Or.inr (Or.inl ⟨hact, h⟩))
        · rw [upd_other _ _ _ _ hk, hg] at hg'
          cases hg'
          exact Or.inl rfl
  | undo gid0 =>
      unfold stepOp at hstep
      dsimp only at hstep
      rcases hu : api_undo_move lib s gid0 now with e | out <;> rw [hu] at hstep
      · cases hstep
      · cases hstep
        obtain ⟨game, board, ms, undone, rs, hgame, _, _, _, _, h1g, _, _, _,
          _, hst, _⟩ := undo_move_ok_inv lib s.gm gid0 now out.1.gm out.2
            (api_undo_move_ok_inv lib s gid0 now out hu)
        rw [h1g] at hg'
        by_cases hk : gid = gid0
        · subst hk
          rw [upd_same] at hg'
          cases hg'
          rw [hg] at hgame
          cases hgame
          rw [hst]
          by_cases hfin : g.status = GameStatus.finished
          · rw [if_pos hfin]
            exact Or.inr (Or.inr (Or.inr ⟨hfin, rfl, gid, rfl⟩))
          · rw [if_neg hfin]
            exact Or.inl rfl
        · rw [upd_other _ _ _ _ hk, hg] at hg'
          cases hg'
          exact Or.inl rfl
  | redo gid0 =>
      unfold stepOp at hstep
      dsimp only at hstep
      rcases hr0 : api_redo_move lib s gid0 now with e | out <;> rw [hr0] at hstep
      · cases hstep
      · cases hstep
        obtain ⟨game, board, rs, mv, ms, hgame, _, hrs, hlast, _, h1g, _, _, _,
          _, hstat⟩ := redo_move_ok_inv lib s.gm gid0 now out.1.gm out.2
            (api_redo_move_ok_inv lib s gid0 now out hr0)
        rw [h1g] at hg'
        by_cases hk : gid = gid0
        · subst hk
          rw [upd_same] at hg'
          cases hg'
          rw [hg] at hgame
          cases hgame
          rcases hstat with h | h
          · exact Or.inl h.symm
          · rcases hsg : g.status with hw | ha | hf | hab
            · exfalso
              have := ((hgood gid g hg).2 hsg).2
              rw [hrs] at this
              cases this
              cases hlast
            · exact Or.inr (Or.inr (Or.inl ⟨rfl, h⟩))
            · exact Or.inl (by rw [h])
            · exact absurd hsg (hgood gid g hg).1
        · rw [upd_other _ _ _ _ hk, hg] at hg'
          cases hg'
          exact Or.inl rfl
  | timeUp gid0 p =>
      unfold stepOp at hstep
      dsimp only at hstep
      cases hstep
      rcases handle_time_up_cases s gid0 p now with hsame |
        ⟨g0, hget, hact, hgames, _, _, _⟩
      · rw [hsame, hg] at hg'
        cases hg'
        exact Or.inl rfl
      · rw [hgames] at hg'
        by_cases hk : gid = pyStrip gid0
        · subst hk
          rw [upd_same] at hg'
          cases hg'
          have hg0 := get_game_state_ok_inv s.gm gid0 g0 hget
          rw [hg] at hg0
          cases hg0
          exact Or.inr (Or.inr (Or.inl ⟨hact, rfl⟩))
        · rw [upd_other _ _ _ _ hk, hg] at hg'
          cases hg'
          exact Or.inl rfl

def gidW : String := "33333333-4444-5555"

/-- A reachable state holding a Waiting session: alice created a game with
no opponent and no time control. -/
def sWait : ServerState := (api_create_game initServer gidW alice none none 0).1

/-- Witness for C5: joining the waiting session is a Waiting→Active step,
allowed by the transition relation. -/
theorem status_transitions_witness :
    ∃ s', stepOp trivLib sWait (Op.join gidW bob) 1 = .ok s' ∧
      ∃ g g', sWait.gm.games gidW = some g ∧ s'.gm.games gidW = some g' ∧
        allowedStatusStep (Op.join gidW bob) g.status g'.status := by
  have hreach : Reachable trivLib sWait :=
    Reachable.step initServer (Op.create gidW alice none none) 0 sWait
      Reachable.init rfl
  refine ⟨_, rfl, _, _, rfl, rfl, ?_⟩
  exact status_transitions trivLib sWait hreach (Op.join gidW bob) 1 _ rfl
    gidW _ _ rfl rfl
